import Mathlib

/-!
Verification development for the sidekick repository, centred on
internal/scanner/scanner.go (scan orchestration, response normalization,
the triad debate loop, the static pre-scanner and the interactive fix
applicator).

Modelling conventions:
* Go strings are embedded as lists of characters (`GoStr`).  All the byte
  comparisons performed by the scanner involve ASCII characters only, for
  which byte-wise and rune-wise processing agree.
* External effects (reading files, the Ollama HTTP client, and the two
  `encoding/json` entry points used on model output) are abstracted into an
  explicit environment record `GoEnv`; every theorem quantifies over the
  environment, so nothing is assumed about the model service.
* The worker pool in `ScanFiles` only permutes the order of the returned
  results; the model processes the files sequentially in input order, which
  is faithful for all per-element properties considered here.
-/

namespace Sidekick

/-- Go strings, embedded as character lists. -/
abbrev GoStr := List Char

/-- Go error values, kept as their message strings. -/
abbrev GoErr := List Char

/-- Character class trimmed by Go strings.TrimSpace (unicode.IsSpace). -/
def goIsSpace (c : Char) : Bool :=
  c = ' ' || c = '\t' || c = '\n' || c = '\x0b' || c = '\x0c' || c = '\r' ||
  c = '\x85' || c = '\xa0' || c = '\u1680' ||
  ('\u2000' ≤ c && c ≤ '\u200a') ||
  c = '\u2028' || c = '\u2029' || c = '\u202f' || c = '\u205f' || c = '\u3000'

/-- Left half of strings.TrimSpace. -/
def goTrimLeft (s : GoStr) : GoStr := s.dropWhile goIsSpace

/-- Right half of strings.TrimSpace. -/
def goTrimRight (s : GoStr) : GoStr := (s.reverse.dropWhile goIsSpace).reverse

/-- Go strings.TrimSpace. -/
def goTrimSpace (s : GoStr) : GoStr := goTrimRight (goTrimLeft s)

/-- Go strings.HasPrefix. -/
def goHasPrefix (s pre : GoStr) : Bool := pre.isPrefixOf s

/-- Go strings.HasSuffix. -/
def goHasSuffix (s suf : GoStr) : Bool := suf.isSuffixOf s

/-- Go strings.TrimPrefix. -/
def goTrimPrefix (s pre : GoStr) : GoStr :=
  if goHasPrefix s pre then s.drop pre.length else s

/-- Go strings.TrimSuffix. -/
def goTrimSuffix (s suf : GoStr) : GoStr :=
  if goHasSuffix s suf then s.take (s.length - suf.length) else s

/-- Go strings.Split with separator a single newline. -/
def goSplitNl (s : GoStr) : List GoStr := List.splitOn '\n' s

/-- Go strings.Join with separator a single newline. -/
def goJoinNl (ls : List GoStr) : GoStr := List.intercalate ['\n'] ls

/-- Go strings.Contains (substring test). -/
def goContains : GoStr → GoStr → Bool
  | [], sub => List.isPrefixOf sub []
  | c :: t, sub => List.isPrefixOf sub (c :: t) || goContains t sub

/-- Go strings.ToUpper (ASCII-relevant part of the unicode mapping). -/
def goToUpper (s : GoStr) : GoStr := s.map Char.toUpper

/-- Go strings.ToLower (ASCII-relevant part of the unicode mapping). -/
def goToLower (s : GoStr) : GoStr := s.map Char.toLower

/-- Go strings.EqualFold; for the ASCII tokens compared by the scanner the
simple fold coincides with lower-casing both sides. -/
def goEqualFold (a b : GoStr) : Bool := goToLower a = goToLower b

/-- Go strings.Repeat. -/
def goRepeat (s : GoStr) (n : Nat) : GoStr := (List.replicate n s).flatten

/-- Decimal rendering of a natural, as produced by fmt with the d verb. -/
def goItoa (n : Nat) : GoStr := (toString n).toList

/-- Decimal rendering of an integer, as produced by fmt with the d verb. -/
def goItoaInt (i : Int) : GoStr := (toString i).toList

/-- Right-justified width-4 rendering used by addLineNumbers (format 4d). -/
def goPad4 (n : Nat) : GoStr :=
  let d := goItoa n
  List.replicate (4 - d.length) ' ' ++ d

/-- truncateText from scanner.go: cut a string to at most maxLen bytes. -/
def truncateText (text : GoStr) (maxLen : Nat) : GoStr :=
  if text.length ≤ maxLen then text else text.take maxLen

/-- SecurityIssue from scanner.go (field names follow the Go struct). -/
structure SecurityIssue where
  Severity : GoStr := []
  Title : GoStr := []
  Description : GoStr := []
  LineStart : Int := 0
  LineEnd : Int := 0
  Recommendation : GoStr := []
  Confidence : GoStr := []
  IssueID : GoStr := []
  SuggestedFix : GoStr := []
  FixAvailable : Bool := false
deriving DecidableEq

/-- ScanResult from scanner.go. -/
structure ScanResult where
  FilePath : GoStr
  RawFindings : GoStr := []
  HasIssues : Bool := false
  Issues : List SecurityIssue := []
deriving DecidableEq

/-- triadStaticFinding from scanner.go. -/
structure triadStaticFinding where
  File : GoStr
  Line : Int
  Pattern : GoStr
  Severity : GoStr
deriving DecidableEq

/-- triadVulnerability from scanner.go; the Go field named Type is rendered
TypeName because Type is a Lean keyword. -/
structure triadVulnerability where
  TypeName : GoStr := []
  File : GoStr := []
  Line : Int := 0
  Evidence : GoStr := []
  Recommendation : GoStr := []
deriving DecidableEq

/-- triadReport from scanner.go; the default values form the Go zero value
produced by declaring a variable of the struct type. -/
structure triadReport where
  FinalSeverity : GoStr := []
  Confidence : GoStr := []
  Vulnerabilities : List triadVulnerability := []
  Summary : GoStr := []
deriving DecidableEq

/-- stripMarkdownCodeFences from scanner.go. -/
def stripMarkdownCodeFences (s0 : GoStr) : GoStr :=
  let s1 := goTrimSpace s0
  let s2 :=
    if goHasPrefix s1 ("```json".toList) then goTrimPrefix s1 ("```json".toList)
    else if goHasPrefix s1 ("```".toList) then goTrimPrefix s1 ("```".toList)
    else s1
  let s3 := goTrimSuffix s2 ("```".toList)
  goTrimSpace s3

/-- One iteration of the byte loop inside fixJSONStringEscaping: given the
pair (inString, escaped) and the current byte, return the bytes written and
the next state.  The branch order matches the Go loop body exactly. -/
def fixStep : (Bool × Bool) → Char → GoStr × (Bool × Bool)
  | (inString, true), c => ([c], (inString, false))
  | (inString, false), c =>
    if c = '\\' then ([c], (inString, true))
    else if c = '"' then ([c], (!inString, false))
    else if inString && c = '\n' then (['\\', 'n'], (inString, false))
    else if inString && c = '\t' then (['\\', 't'], (inString, false))
    else ([c], (inString, false))

/-- The scan loop of fixJSONStringEscaping, starting from a given state. -/
def fixScan (st : Bool × Bool) : GoStr → GoStr
  | [] => []
  | c :: rest => (fixStep st c).1 ++ fixScan (fixStep st c).2 rest

/-- fixJSONStringEscaping from scanner.go: rewrite literal newlines and tabs
inside JSON string literals to their escape sequences. -/
def fixJSONStringEscaping (s : GoStr) : GoStr := fixScan (false, false) s

/-- The Response Normalizer: fence-stripping followed by escape-repair, in
the order scanner.go applies them before every json.Unmarshal of model
output. -/
def normalizeResponse (s : GoStr) : GoStr :=
  fixJSONStringEscaping (stripMarkdownCodeFences s)

/-- State of the escape-repair scan after consuming a list of bytes. -/
def scanState (st : Bool × Bool) (s : GoStr) : Bool × Bool :=
  s.foldl (fun acc c => (fixStep acc c).2) st

/-- C5 counterexample input: a string carrying two ```json markers.  One
normalization pass strips only the first; the second pass strips the other. -/
def doubleFence : GoStr := "```json```json".toList

/-- The line-range clamp performed by applyFix in scanner.go before any use
of the model-reported line numbers (lines 854-865), extracted verbatim:
lineStart is forced into [1, lineCount], then lineEnd into
[lineStart, lineCount]. -/
def clampLineRange (lineCount lineStart lineEnd : Int) : Int × Int :=
  let ls1 := if lineStart < 1 then 1 else lineStart
  let ls2 := if ls1 > lineCount then lineCount else ls1
  let le1 := if lineEnd < ls2 then ls2 else lineEnd
  let le2 := if le1 > lineCount then lineCount else le1
  (ls2, le2)

/-- Width of the leading indentation of a fix line, counting a space as 1
and a tab as 4, stopping at the first other character (applyFix). -/
def lineIndentWidth (l : GoStr) : Int :=
  (l.takeWhile (fun c => c = ' ' || c = '\t')).foldl
    (fun acc c => acc + if c = ' ' then (1 : Int) else 4) 0

/-- The minimum-indentation fold of applyFix over the fix lines, including
its sentinel -1 for "no non-blank line seen yet". -/
def minFixIndentOf (fixLines : List GoStr) : Int :=
  let m := fixLines.foldl
    (fun m fl =>
      if goTrimSpace fl = [] then m
      else
        let ind := lineIndentWidth fl
        if m = -1 ∨ ind < m then ind else m)
    (-1)
  if m = -1 then 0 else m

/-- Re-indentation of one fix line by applyFix: blank lines become empty,
other lines get the original base indent plus their indent relative to the
minimum, rendered with tabs when the original indent used tabs.  The Go
division and modulus on ints truncate toward zero (Int.tdiv, Int.tmod);
relativeIndent is never negative for a non-blank line because
minFixIndentOf is a minimum over exactly those lines. -/
def reindentLine (originalIndent : GoStr) (minFixIndent : Int) (fl : GoStr) : GoStr :=
  let trimmed := goTrimSpace fl
  if trimmed = [] then []
  else
    let currentIndent := lineIndentWidth fl
    let relativeIndent := currentIndent - minFixIndent
    let newIndent :=
      if goContains originalIndent ("\t".toList) then
        originalIndent ++ goRepeat ("\t".toList) (Int.tdiv relativeIndent 4).toNat ++
          goRepeat (" ".toList) (Int.tmod relativeIndent 4).toNat
      else
        originalIndent ++ goRepeat (" ".toList) relativeIndent.toNat
    newIndent ++ trimmed

/-- applyFix from scanner.go, as a function from the current file content to
the new file content (the os.ReadFile / os.WriteFile pair at its boundary is
the only part abstracted away). -/
def applyFix (content : GoStr) (issue : SecurityIssue) : Except GoErr GoStr :=
  if issue.FixAvailable = false ∨ issue.SuggestedFix = [] then
    Except.error ("no fix available".toList)
  else
    let lines := goSplitNl content
    let n : Int := lines.length
    let clamped := clampLineRange n issue.LineStart issue.LineEnd
    let ls := clamped.1
    let le := clamped.2
    let firstLine := lines.getD (ls - 1).toNat []
    let originalIndent :=
      if ls - 1 < n ∧ firstLine.length > 0 then
        firstLine.takeWhile (fun c => c = ' ' || c = '\t')
      else []
    let fixLines := goSplitNl (goTrimSuffix issue.SuggestedFix ("\n".toList))
    let minFixIndent := minFixIndentOf fixLines
    let fixLines2 := fixLines.map (reindentLine originalIndent minFixIndent)
    let newLines := lines.take (ls - 1).toNat ++ fixLines2 ++
      (if le < n then lines.drop le.toNat else [])
    Except.ok (goJoinNl newLines)

/-- Fuel-indexed worker for goReplaceAll; every step consumes at least one
character of the remaining string, so fuel equal to the string length makes
the zero-fuel default unreachable.  Structural recursion on the fuel keeps
the function computable by the kernel. -/
def goReplaceAllAux (old new : GoStr) : Nat → GoStr → GoStr
  | 0, s => s
  | _ + 1, [] => []
  | fuel + 1, c :: rest =>
    if old ≠ [] ∧ List.isPrefixOf old (c :: rest) = true then
      new ++ goReplaceAllAux old new fuel ((c :: rest).drop old.length)
    else c :: goReplaceAllAux old new fuel rest

/-- Go strings.ReplaceAll for a non-empty pattern. -/
def goReplaceAll (s old new : GoStr) : GoStr :=
  goReplaceAllAux old new s.length s

/-- The line loop of extractCodeFromResponse in scanner.go, carrying the
inCodeSection flag and returning the collected code lines. -/
def extractCodeLoop : List GoStr → Bool → List GoStr
  | [], _ => []
  | line :: rest, inCode =>
    if goHasPrefix (goTrimSpace line) ("CODE:".toList) then extractCodeLoop rest true
    else if inCode then
      let trimmed := goTrimSpace line
      if trimmed = ("```".toList) || goHasPrefix trimmed ("```go".toList) ||
          goHasPrefix trimmed ("```python".toList) || goHasPrefix trimmed ("```java".toList) ||
          goHasPrefix trimmed ("```javascript".toList) || goHasPrefix trimmed ("```".toList) then
        extractCodeLoop rest inCode
      else line :: extractCodeLoop rest inCode
    else extractCodeLoop rest inCode

/-- extractCodeFromResponse from scanner.go: take the CODE: section of a
model reply, or, if there is none, the whole reply with markdown fences
erased. -/
def extractCodeFromResponse (response : GoStr) : GoStr :=
  let codeLines := extractCodeLoop (goSplitNl response) false
  if codeLines = [] then
    let r0 := goTrimSpace response
    let r1 := goReplaceAll r0 ("```go".toList) []
    let r2 := goReplaceAll r1 ("```python".toList) []
    let r3 := goReplaceAll r2 ("```java".toList) []
    let r4 := goReplaceAll r3 ("```javascript".toList) []
    let r5 := goReplaceAll r4 ("```".toList) []
    goTrimSpace r5
  else goTrimSpace (goJoinNl codeLines)

/-- The apply action of ReviewFindings (scanner.go lines 740-758): extract
the replacement code, widen lineEnd when the fix has more lines than the
reported range (clamped to the file length), then run applyFix on the
current content. -/
def reviewApplyStep (content : GoStr) (issue0 : SecurityIssue) : Except GoErr GoStr :=
  let lines := goSplitNl content
  let fix := extractCodeFromResponse issue0.SuggestedFix
  let fixLineCount : Int := (goSplitNl (goTrimSpace fix)).length
  let originalLineCount := issue0.LineEnd - issue0.LineStart + 1
  let issue1 := { issue0 with SuggestedFix := fix }
  let issue2 :=
    if fixLineCount > originalLineCount then
      let le := issue0.LineStart + fixLineCount - 1
      { issue1 with
        LineEnd := if le > (lines.length : Int) then (lines.length : Int) else le }
    else issue1
  applyFix content issue2

/-- Insertion step of the descending sort used to model sort.Slice in
ReviewFindings: place x before the first element whose lineStart it
reaches. -/
def insertDesc (x : SecurityIssue) : List SecurityIssue → List SecurityIssue
  | [] => [x]
  | y :: ys => if y.LineStart ≤ x.LineStart then x :: y :: ys else y :: insertDesc x ys

/-- The descending sort at the top of ReviewFindings.  Go sort.Slice with
the comparator lineStart-greater guarantees exactly that every earlier
element has a lineStart at least as large as every later one; sort.Slice is
unstable, so any permutation with that pairwise order is an admissible
model, realized here by insertion sort. -/
def sortFindingsDesc (findings : List SecurityIssue) : List SecurityIssue :=
  findings.foldr insertDesc []

/-- Decidable equality of embedded Go call results, used only to evaluate
the concrete scenario theorems. -/
instance (priority := low) {α β : Type} [DecidableEq α] [DecidableEq β] :
    DecidableEq (Except α β) := fun x y =>
  match x, y with
  | Except.ok a, Except.ok b =>
    if h : a = b then isTrue (by rw [h])
    else isFalse (by intro hc; injection hc; contradiction)
  | Except.error a, Except.error b =>
    if h : a = b then isTrue (by rw [h])
    else isFalse (by intro hc; injection hc; contradiction)
  | Except.ok _, Except.error _ => isFalse (by intro hc; cases hc)
  | Except.error _, Except.ok _ => isFalse (by intro hc; cases hc)

/-- extractLines from scanner.go: the (clamped) slice of lines shown by the
show-diff action. -/
def extractLines (lines : List GoStr) (lineStart lineEnd : Int) : GoStr :=
  if lineStart < 1 ∨ lineStart > (lines.length : Int) then []
  else
    let le := if lineEnd < lineStart ∨ lineEnd > (lines.length : Int)
      then (lines.length : Int) else lineEnd
    goJoinNl ((lines.drop (lineStart - 1).toNat).take (le - (lineStart - 1)).toNat)

/-- looksLikeSQLConcat from scanner.go. -/
def looksLikeSQLConcat (line : GoStr) : Bool :=
  let upper := goToUpper line
  if !(goContains upper ("SELECT".toList) || goContains upper ("INSERT".toList) ||
      goContains upper ("UPDATE".toList) || goContains upper ("DELETE".toList)) then
    false
  else
    goContains line ("+".toList) || goContains line ("fmt.Sprintf".toList)

/-- looksLikeFmtSprintfUserInput from scanner.go. -/
def looksLikeFmtSprintfUserInput (line : GoStr) : Bool :=
  if !goContains line ("fmt.Sprintf".toList) then false
  else
    (["r.", "req", "request", "user", "input", "param", "query", "form"].map
        String.toList).any
      (fun hint => goContains (goToLower line) hint)

/-- The per-line pattern checks of runTriadStaticAnalysis, in source order;
each check appends its finding independently. -/
def triadLineFindings (filePath : GoStr) (lineNum : Int) (trimmed : GoStr) :
    List triadStaticFinding :=
  (if goContains trimmed ("exec.Command".toList) then
    [⟨filePath, lineNum, "exec.Command".toList, "High".toList⟩] else []) ++
  (if goContains trimmed ("tls.Config".toList) &&
      goContains trimmed ("InsecureSkipVerify".toList) &&
      goContains trimmed ("true".toList) then
    [⟨filePath, lineNum, "tls.Config\x7bInsecureSkipVerify: true\x7d".toList,
      "High".toList⟩] else []) ++
  (if looksLikeSQLConcat trimmed then
    [⟨filePath, lineNum, "SQL string concatenation".toList, "High".toList⟩] else []) ++
  (if goContains trimmed ("http.ListenAndServe".toList) then
    [⟨filePath, lineNum, "http.ListenAndServe".toList, "Medium".toList⟩] else []) ++
  (if looksLikeFmtSprintfUserInput trimmed then
    [⟨filePath, lineNum, "fmt.Sprintf with user input".toList, "Medium".toList⟩] else [])

/-- runTriadStaticAnalysis from scanner.go, over an association list of
file path and content.  Go iterates a map here, whose order is
unspecified; the list fixes one admissible order, and all per-file facts
are order-independent. -/
def runTriadStaticAnalysis (codeByFile : List (GoStr × GoStr)) : List triadStaticFinding :=
  codeByFile.flatMap (fun fc =>
    ((goSplitNl fc.2).enum).flatMap (fun il =>
      triadLineFindings fc.1 ((il.1 : Int) + 1) (goTrimSpace il.2)))

/-- addLineNumbers from scanner.go: prefix every line with its right
justified width-4 number and a separator. -/
def addLineNumbers (content : GoStr) : GoStr :=
  ((goSplitNl content).enum).flatMap
    (fun il => goPad4 (il.1 + 1) ++ " | ".toList ++ il.2 ++ "\n".toList)

/-- getContextPrompt from security.go (stage 1 template). -/
def getContextPrompt (filename content : GoStr) : GoStr :=
  ("Analyze the context of this code file to help guide a security scan.\n\nFILE: ".toList) ++
  filename ++
  ("\nCODE (with line numbers):\n".toList) ++
  content ++
  ("\n\nCRITICAL: Output ONLY valid JSON, no other text.\n\nOutput format:\n\x7b\n  \"language\": \"Programming language name\",\n  \"version\": \"Version if evident, otherwise \x27unknown\x27\",\n  \"frameworks\": [\"List\", \"of\", \"frameworks\"],\n  \"libraries\": [\"List\", \"of\", \"libraries\"],\n  \"purpose\": \"Brief description of code purpose\",\n  \"data_handling\": [\"user_input\", \"database\", \"filesystem\", \"network\"],\n  \"security_concerns\": [\"Key security risks for this tech stack\"]\n\x7d\n\nNote: The code has line numbers prefixed (e.g., \"1 | package main\"). These are the actual line numbers - use them for precise vulnerability reporting.".toList)

/-- getScanPrompt from security.go (stage 2 template, the variant carrying
fix_available and suggested_fix). -/
def getScanPrompt (filename content context : GoStr) : GoStr :=
  ("Based on this context analysis:\n\n".toList) ++
  context ++
  ("\n\nNow perform a thorough security scan of the code:\n\nFILE: ".toList) ++
  filename ++
  ("\nCODE (with line numbers):\n".toList) ++
  content ++
  ("\n\nIMPORTANT: The code has line numbers prefixed (e.g., \"42 | if err != nil\"). Use these EXACT line numbers in your response.\n\nCRITICAL INSTRUCTIONS:\n- Output ONLY raw JSON\n- NO markdown code fences (no triple-backtick json markers)\n- NO explanatory text before or after the JSON\n- Start your response directly with \x7b and end with \x7d\n\nOutput format (JSON only):\n\x7b\n  \"findings\": [\n    \x7b\n      \"severity\": \"CRITICAL|HIGH|MEDIUM|LOW\",\n      \"title\": \"Brief title (e.g., \x27SQL Injection\x27, \x27Hardcoded Credentials\x27)\",\n      \"description\": \"Detailed explanation of the vulnerability\",\n      \"line_start\": <number>,\n      \"line_end\": <number>,\n      \"recommendation\": \"How to fix this issue\",\n      \"confidence\": \"HIGH|MEDIUM|LOW\",\n      \"issue_id\": \"CWE-XXX or OWASP-AXX (optional)\",\n      \"fix_available\": true|false,\n      \"suggested_fix\": \"Complete replacement code for lines line_start to line_end (only if fix_available is true)\"\n    \x7d\n  ]\n\x7d\n\nRules:\n- severity: CRITICAL, HIGH, MEDIUM, or LOW\n- line_start and line_end: use the EXACT numbers from the prefixed code\n- confidence: HIGH (certain), MEDIUM (likely), LOW (possible)\n- issue_id: CWE/OWASP identifier if applicable (can be omitted)\n- fix_available: true if you can provide a code fix, false if it requires manual intervention (e.g., architecture changes, hardcoded secrets that need external config)\n- suggested_fix: ONLY if fix_available is true, provide the complete replacement code for the vulnerable lines\n- If no vulnerabilities found, output: \x7b\"findings\": []\x7d\n- Your response must be valid JSON that can be parsed directly".toList)

/-- getTriadAttackerPrompt from security.go. -/
def getTriadAttackerPrompt (sharedContext summary : GoStr) (round : Nat) : GoStr :=
  ("You are the ATTACKER in round ".toList) ++
  (goItoa round) ++
  (".\n\nShared context:\n".toList) ++
  sharedContext ++
  ("\n\nPrior summary (if any):\n".toList) ++
  summary ++
  ("\n\nTask:\n- Assume a hostile environment.\n- Identify concrete exploit scenarios based on the code and static findings.\n- Include preconditions, exploitation steps, and impact.\n\nOutput format:\n- Bullet list.\n- Reference file names and line numbers where possible.\n".toList)

/-- getTriadDefenderPrompt from security.go. -/
def getTriadDefenderPrompt (sharedContext summary attackerResponse : GoStr) (round : Nat) :
    GoStr :=
  ("You are the DEFENDER in round ".toList) ++
  (goItoa round) ++
  (".\n\nShared context:\n".toList) ++
  sharedContext ++
  ("\n\nPrior summary (if any):\n".toList) ++
  summary ++
  ("\n\nAttacker claims:\n".toList) ++
  attackerResponse ++
  ("\n\nTask:\n- Challenge attacker claims with evidence.\n- Identify false positives or mitigating factors.\n- Note Go runtime protections or deployment assumptions.\n\nOutput format:\n- Bullet list of rebuttals and mitigations.\n".toList)

/-- getTriadAuditorPrompt from security.go. -/
def getTriadAuditorPrompt
    (sharedContext summary attackerResponse defenderResponse : GoStr) (round : Nat) : GoStr :=
  ("You are the AUDITOR in round ".toList) ++
  (goItoa round) ++
  (".\n\nShared context:\n".toList) ++
  sharedContext ++
  ("\n\nPrior summary (if any):\n".toList) ++
  summary ++
  ("\n\nAttacker claims:\n".toList) ++
  attackerResponse ++
  ("\n\nDefender rebuttals:\n".toList) ++
  defenderResponse ++
  ("\n\nTask:\n- Resolve disagreements using evidence from the code and findings.\n- Provide final severity and confidence.\n- Prefer evidence over speculation.\n\nCRITICAL INSTRUCTIONS:\n- Output ONLY raw JSON.\n- No markdown fences.\n- Start with \x7b and end with \x7d.\n\nOutput JSON format:\n\x7b\n  \"final_severity\": \"Low|Medium|High|Critical\",\n  \"confidence\": \"Low|Medium|High\",\n  \"summary\": \"Short summary for next round\",\n  \"vulnerabilities\": [\n    \x7b\n      \"type\": \"Short vulnerability name\",\n      \"file\": \"path/to/file.go\",\n      \"line\": 123,\n      \"evidence\": \"Concrete evidence from code\",\n      \"recommendation\": \"Specific fix recommendation\"\n    \x7d\n  ]\n\x7d\n".toList)

/-- Go strings.SplitN with separator a newline and limit 2, as used by
parseCustomPrompt. -/
def goSplitN2 (s : GoStr) : List GoStr :=
  if s.any (fun c => c = '\n') then
    [s.takeWhile (fun c => ¬ c = '\n'), (s.dropWhile (fun c => ¬ c = '\n')).drop 1]
  else [s]

/-- parseCustomPrompt from custom.go: extract an optional MODE: directive
(ask, edit or plan; default ask) and the prompt body. -/
def parseCustomPrompt (raw : GoStr) : GoStr × GoStr :=
  let trimmed := goTrimSpace raw
  if trimmed = [] then ("ask".toList, [])
  else
    let lines := goSplitN2 trimmed
    let hd := goTrimSpace (lines.getD 0 [])
    if goHasPrefix (goToUpper hd) ("MODE:".toList) then
      let mode := goToLower (goTrimSpace (hd.drop ("MODE:".toList).length))
      let body := if lines.length > 1 then goTrimSpace (lines.getD 1 []) else []
      if mode = "ask".toList ∨ mode = "edit".toList ∨ mode = "plan".toList then (mode, body)
      else ("ask".toList, body)
    else ("ask".toList, trimmed)

/-- The severity-to-emoji map of renderFindings; a missing key yields the
empty string, as a Go map lookup does. -/
def severityEmojiGet (sev : GoStr) : GoStr :=
  if sev = "CRITICAL".toList then "🔴".toList
  else if sev = "HIGH".toList then "🟠".toList
  else if sev = "MEDIUM".toList then "🟡".toList
  else if sev = "LOW".toList then "🟢".toList
  else []

/-- renderFindings from scanner.go: the text report grouped by severity in
the fixed CRITICAL, HIGH, MEDIUM, LOW order; grouping through the Go map
keeps insertion order inside one severity, which filter reproduces. -/
def renderFindings (issues : List SecurityIssue) : GoStr :=
  if issues.length = 0 then "No security issues found.".toList
  else
    let sevOrder := ["CRITICAL".toList, "HIGH".toList, "MEDIUM".toList, "LOW".toList]
    let header :=
      "===================================\nSecurity Analysis Report\n===================================\n\n".toList
    let body := sevOrder.flatMap (fun sev =>
      (issues.filter (fun i => i.Severity = sev)).flatMap (fun issue =>
        severityEmojiGet sev ++ " ".toList ++ sev ++ ": ".toList ++ issue.Title ++
        "\n".toList ++ "   ".toList ++
        (if issue.LineEnd ≠ issue.LineStart then
          "Lines: ".toList ++ goItoaInt issue.LineStart ++ "-".toList ++ goItoaInt issue.LineEnd
        else "Line: ".toList ++ goItoaInt issue.LineStart) ++
        (if issue.Confidence ≠ [] then " | Confidence: ".toList ++ issue.Confidence else []) ++
        (if issue.IssueID ≠ [] then " | ".toList ++ issue.IssueID else []) ++
        "\n\n".toList ++
        "   Description:\n   ".toList ++ issue.Description ++ "\n\n".toList ++
        "   Recommendation:\n   ".toList ++ issue.Recommendation ++ "\n\n".toList ++
        "-----------------------------------\n\n".toList))
    let summary := "Summary:\n".toList ++ sevOrder.flatMap (fun sev =>
      let items := issues.filter (fun i => i.Severity = sev)
      if items.length > 0 then
        "  ".toList ++ severityEmojiGet sev ++ " ".toList ++ sev ++ ": ".toList ++
          goItoa items.length ++ "\n".toList
      else [])
    header ++ body ++ summary

/-- The effectful boundary of the scanner, as an explicit environment:
readFile models os.ReadFile; generate models the blocking Ollama
client.Generate call with the scanner model name folded in; the two
unmarshal fields model json.Unmarshal at the two response shapes the
scanner decodes; marshalReport models json.MarshalIndent of the final triad
report; marshalStaticFindings models the json.MarshalIndent whose error
buildTriadSharedContext discards; renderCustomPrompt models
prompts.RenderCustomPrompt, whose embedded template files are not part of
the repository sources. -/
structure GoEnv where
  readFile : GoStr → Except GoErr GoStr
  generate : GoStr → Except GoErr GoStr
  unmarshalFindings : GoStr → Except GoErr (List SecurityIssue)
  unmarshalReport : GoStr → Except GoErr triadReport
  marshalReport : triadReport → Except GoErr GoStr
  marshalStaticFindings : List triadStaticFinding → GoStr
  renderCustomPrompt : GoStr → GoStr → GoStr → GoStr → Except GoErr GoStr

/-- The Scanner configuration fields that influence control flow. -/
structure ScannerModel where
  scanType : GoStr
  customPrompt : GoStr

/-- createCustomPrompt from custom.go: render the mode template, falling
back to a plain concatenation when rendering fails. -/
def createCustomPrompt (s : ScannerModel) (env : GoEnv) (filename content : GoStr) : GoStr :=
  let mu := parseCustomPrompt s.customPrompt
  match env.renderCustomPrompt mu.1 mu.2 filename content with
  | Except.error _ =>
    s.customPrompt ++ "\n\nFILE: ".toList ++ filename ++ "\nCODE:\n".toList ++
      content ++ "\n".toList
  | Except.ok r => r

/-- scanFileWithProgress from scanner.go, with the progress/spinner and
debug-log side effects dropped: read the file, return an empty result for
empty or oversized content, then run either the two-stage security pipeline
or the single custom prompt. -/
def scanFileM (s : ScannerModel) (env : GoEnv) (filePath : GoStr) : Except GoErr ScanResult :=
  match env.readFile filePath with
  | Except.error e => Except.error ("failed to read file: ".toList ++ e)
  | Except.ok content =>
    if content.length = 0 then Except.ok ⟨filePath, [], false, []⟩
    else if content.length > 100000 then Except.ok ⟨filePath, [], false, []⟩
    else if s.scanType = "security".toList then
      let numberedContent := addLineNumbers content
      match env.generate (getContextPrompt filePath numberedContent) with
      | Except.error e => Except.error ("context analysis failed: ".toList ++ e)
      | Except.ok contextAnalysis0 =>
        let contextAnalysis := stripMarkdownCodeFences contextAnalysis0
        match env.generate (getScanPrompt filePath numberedContent contextAnalysis) with
        | Except.error e => Except.error ("security scan failed: ".toList ++ e)
        | Except.ok findings0 =>
          let findings := fixJSONStringEscaping (stripMarkdownCodeFences findings0)
          match env.unmarshalFindings findings with
          | Except.error e => Except.error ("failed to parse JSON response: ".toList ++ e)
          | Except.ok fs =>
            Except.ok ⟨filePath, renderFindings fs, decide (fs.length > 0), fs⟩
    else
      let prompt := createCustomPrompt s env filePath content
      match env.generate prompt with
      | Except.error e => Except.error ("analysis failed: ".toList ++ e)
      | Except.ok response =>
        Except.ok ⟨filePath, response, decide (goTrimSpace response ≠ []), []⟩

/-- The triad file reading and filtering loop of scanTriadFiles: any read
error aborts, empty and oversized files are silently omitted. -/
def readTriadFiles (env : GoEnv) : List GoStr → Except GoErr (List (GoStr × GoStr))
  | [] => Except.ok []
  | f :: rest =>
    match env.readFile f with
    | Except.error e => Except.error ("failed to read file: ".toList ++ e)
    | Except.ok content =>
      match readTriadFiles env rest with
      | Except.error e => Except.error e
      | Except.ok r =>
        if content.length = 0 ∨ content.length > 100000 then Except.ok r
        else Except.ok ((f, content) :: r)

/-- buildTriadSharedContext from scanner.go: numbered sources, static
findings JSON and the fixed assumption line, truncated to 16000 bytes. -/
def buildTriadSharedContext (env : GoEnv) (codeByFile : List (GoStr × GoStr))
    (findings : List triadStaticFinding) : GoStr :=
  let codePart := codeByFile.flatMap
    (fun fc => "FILE: ".toList ++ fc.1 ++ "\n".toList ++ addLineNumbers fc.2 ++ "\n".toList)
  let findingsJSON := env.marshalStaticFindings findings
  let assumptions :=
    "Assume code runs as a network service. User input may be untrusted. External dependencies may be attacker-controlled.".toList
  let context := "CODE:\n".toList ++ codePart ++ "\nSTATIC_FINDINGS:\n".toList ++
    findingsJSON ++ "\nASSUMPTIONS:\n".toList ++ assumptions ++ "\n".toList
  truncateText context 16000

/-- One round of the triad loop: attacker, defender and auditor calls in
sequence, normalization and decoding of the auditor JSON, and the summary
update (trimmed report summary, or the truncated auditor response when the
summary is empty). -/
def triadRound (env : GoEnv) (sharedContext summary : GoStr) (round : Nat) :
    Except GoErr (triadReport × GoStr) :=
  match env.generate (getTriadAttackerPrompt sharedContext summary round) with
  | Except.error e => Except.error ("attacker pass failed: ".toList ++ e)
  | Except.ok attackerResp =>
    match env.generate (getTriadDefenderPrompt sharedContext summary attackerResp round) with
    | Except.error e => Except.error ("defender pass failed: ".toList ++ e)
    | Except.ok defenderResp =>
      match env.generate
          (getTriadAuditorPrompt sharedContext summary attackerResp defenderResp round) with
      | Except.error e => Except.error ("auditor pass failed: ".toList ++ e)
      | Except.ok auditorResp0 =>
        let auditorResp := fixJSONStringEscaping (stripMarkdownCodeFences auditorResp0)
        match env.unmarshalReport auditorResp with
        | Except.error e => Except.error ("auditor response parse failed: ".toList ++ e)
        | Except.ok lastReport =>
          let summary1 := goTrimSpace lastReport.Summary
          let summary2 := if summary1 = [] then truncateText auditorResp 1200 else summary1
          Except.ok (lastReport, summary2)

/-- The round loop of scanTriadFiles, indexed by the number of rounds still
allowed so that the recursion is structural; scanTriadFiles starts it with
fuel 3 at round 1, and the round-3 guard stops it before the fuel can ever
reach 0 from that start.  The result carries the last decoded report and
the index of the last round executed. -/
def triadLoopFuel (env : GoEnv) (sharedContext : GoStr) :
    Nat → GoStr → Nat → Except GoErr (triadReport × Nat)
  | 0, _, _ => Except.error []
  | fuel + 1, summary, round =>
    match triadRound env sharedContext summary round with
    | Except.error e => Except.error e
    | Except.ok rs =>
      if goEqualFold rs.1.Confidence ("HIGH".toList) then Except.ok (rs.1, round)
      else if 3 ≤ round then Except.ok (rs.1, round)
      else triadLoopFuel env sharedContext fuel rs.2 (round + 1)

/-- scanTriadFiles from scanner.go, instrumented to also return the final
decoded report and the index of the last round executed (the Go function
keeps both only in locals). -/
def scanTriadFilesM (env : GoEnv) (files : List GoStr) :
    Except GoErr (ScanResult × triadReport × Nat) :=
  let result0 : ScanResult := ⟨"triad:multi".toList, [], false, []⟩
  if files.length = 0 then Except.ok (result0, {}, 0)
  else
    match readTriadFiles env files with
    | Except.error e => Except.error e
    | Except.ok codeByFile =>
      if codeByFile.length = 0 then Except.ok (result0, {}, 0)
      else
        let staticFindings := runTriadStaticAnalysis codeByFile
        let sharedContext := buildTriadSharedContext env codeByFile staticFindings
        match triadLoopFuel env sharedContext 3 [] 1 with
        | Except.error e => Except.error e
        | Except.ok rn =>
          match env.marshalReport rn.1 with
          | Except.error e =>
            Except.error ("failed to serialize final report: ".toList ++ e)
          | Except.ok finalJSON =>
            Except.ok
              (⟨"triad:multi".toList, finalJSON,
                decide (rn.1.Vulnerabilities.length > 0), []⟩, rn.1, rn.2)

/-- ScanFiles from scanner.go.  Triad mode forwards the single aggregate
result; the other modes run the per-file pipeline over every file, dropping
files whose scan errored.  The Go worker pool only permutes the order of
the appended results, so the sequential model is faithful for every
per-element property. -/
def ScanFiles (s : ScannerModel) (env : GoEnv) (files : List GoStr) :
    Except GoErr (List ScanResult) :=
  if s.scanType = "triad".toList then
    match scanTriadFilesM env files with
    | Except.error e => Except.error e
    | Except.ok r => Except.ok [r.1]
  else
    Except.ok (files.filterMap (fun f => (scanFileM s env f).toOption))

/-- A custom-mode scanner configuration. -/
def customScanner : ScannerModel := ⟨"custom".toList, "p".toList⟩

/-- A security-mode scanner configuration. -/
def secScanner : ScannerModel := ⟨"security".toList, []⟩

/-- Environment for the C1 counterexample: file reads succeed with "x" and
every model call answers "hello". -/
def envCustomHello : GoEnv :=
  { readFile := fun _ => Except.ok ("x".toList)
    generate := fun _ => Except.ok ("hello".toList)
    unmarshalFindings := fun _ => Except.ok []
    unmarshalReport := fun _ => Except.ok {}
    marshalReport := fun _ => Except.ok []
    marshalStaticFindings := fun _ => []
    renderCustomPrompt := fun _ _ _ _ => Except.error [] }

/-- Environment whose file reads all yield empty content. -/
def envEmptyRead : GoEnv :=
  { readFile := fun _ => Except.ok []
    generate := fun _ => Except.ok ("hello".toList)
    unmarshalFindings := fun _ => Except.ok []
    unmarshalReport := fun _ => Except.ok {}
    marshalReport := fun _ => Except.ok []
    marshalStaticFindings := fun _ => []
    renderCustomPrompt := fun _ _ _ _ => Except.error [] }

/-- The low-confidence round-1 report of the C6 witness environment. -/
def triadRepLow : triadReport := { Confidence := "Low".toList, Summary := "s1".toList }

/-- The high-confidence round-2 report of the C6 witness environment. -/
def triadRepHigh : triadReport := { Confidence := "High".toList, Summary := "s2".toList }

/-- Environment for the C6 witness: the model answers H exactly when the
prompt mentions round 2, and the decoder maps H to a HIGH-confidence
report, so confidence reaches HIGH in round 2 and not in round 1. -/
def envTriadRound2High : GoEnv :=
  { readFile := fun _ => Except.ok ("x".toList)
    generate := fun p =>
      Except.ok (if goContains p ("round 2".toList) then "H".toList else "L".toList)
    unmarshalFindings := fun _ => Except.ok []
    unmarshalReport := fun s =>
      Except.ok (if s = "H".toList then triadRepHigh else triadRepLow)
    marshalReport := fun _ => Except.ok []
    marshalStaticFindings := fun _ => []
    renderCustomPrompt := fun _ _ _ _ => Except.error [] }

/-- Scenario D input: a 20-line file (lines labelled l1 .. l20). -/
def demoContent20 : GoStr :=
  ("l1\nl2\nl3\nl4\nl5\nl6\nl7\nl8\nl9\nl10\nl11\nl12\nl13\nl14\nl15\nl16\nl17\nl18\nl19\nl20").toList

/-- Scenario D finding: lineStart = lineEnd = 10 with a 3-line suggested fix. -/
def demoIssue3 : SecurityIssue :=
  { LineStart := 10, LineEnd := 10, SuggestedFix := "f1\nf2\nf3".toList, FixAvailable := true }

/-- What the code actually produces for scenario D: a 20-line file in which
lines 10-12 are the fix and the original lines 11 and 12 are gone. -/
def demoResult3 : GoStr :=
  ("l1\nl2\nl3\nl4\nl5\nl6\nl7\nl8\nl9\nf1\nf2\nf3\nl13\nl14\nl15\nl16\nl17\nl18\nl19\nl20").toList

/-- Scenario A input: a 10-line file whose line 5 is a shell execution and
whose other lines match none of the static patterns. -/
def execDemoFile : GoStr :=
  ("ok\nok\nok\nok\nexec.Command(\"sh\",\"-c\",userInput)\nok\nok\nok\nok\nok").toList

theorem scanState_nil (st : Bool × Bool) : scanState st [] = st := rfl

theorem scanState_cons (st : Bool × Bool) (c : Char) (s : GoStr) :
    scanState st (c :: s) = scanState (fixStep st c).2 s := rfl

theorem fixScan_append (st : Bool × Bool) (u v : GoStr) :
    fixScan st (u ++ v) = fixScan st u ++ fixScan (scanState st u) v := by
  induction u generalizing st with
  | nil => simp [fixScan, scanState]
  | cons c u ih => simp [fixScan, scanState_cons, ih]

theorem fixStep_fst_eq (st : Bool × Bool) (c : Char)
    (h1 : c ≠ '\n') (h2 : c ≠ '\t') : (fixStep st c).1 = [c] := by
  obtain ⟨i, e⟩ := st
  cases e <;> (simp [fixStep]; try (split_ifs <;> simp_all))

theorem fixScan_clean (st : Bool × Bool) (s : GoStr)
    (h : ∀ c ∈ s, c ≠ '\n' ∧ c ≠ '\t') : fixScan st s = s := by
  induction s generalizing st with
  | nil => rfl
  | cons c rest ih =>
    have hc := h c (by simp)
    have hchunk := fixStep_fst_eq st c hc.1 hc.2
    have hrest : ∀ x ∈ rest, x ≠ '\n' ∧ x ≠ '\t' := fun x hx => h x (by simp [hx])
    simp [fixScan, hchunk, ih _ hrest]

theorem fixScan_chunk (st : Bool × Bool) (c : Char) :
    fixScan st (fixStep st c).1 = (fixStep st c).1 ∧
    scanState st (fixStep st c).1 = (fixStep st c).2 := by
  obtain ⟨i, e⟩ := st
  cases e
  · by_cases h1 : c = '\\'
    · subst h1; simp [fixStep, fixScan, scanState]
    · by_cases h2 : c = '"'
      · subst h2; simp [fixStep, fixScan, scanState]
      · by_cases h3 : i ∧ c = '\n'
        · obtain ⟨hi, hc⟩ := h3; subst hc; subst hi
          simp [fixStep, fixScan, scanState, h1]
        · by_cases h4 : i ∧ c = '\t'
          · obtain ⟨hi, hc⟩ := h4; subst hc; subst hi
            simp [fixStep, fixScan, scanState, h1]
          · simp [fixStep, fixScan, scanState, h1, h2, h3, h4]
  · simp [fixStep, fixScan, scanState]

theorem fixScan_idem (st : Bool × Bool) (s : GoStr) :
    fixScan st (fixScan st s) = fixScan st s := by
  induction s generalizing st with
  | nil => rfl
  | cons c rest ih =>
    have h := fixScan_chunk st c
    calc fixScan st ((fixStep st c).1 ++ fixScan (fixStep st c).2 rest)
        = fixScan st (fixStep st c).1 ++
            fixScan (scanState st (fixStep st c).1) (fixScan (fixStep st c).2 rest) :=
          fixScan_append ..
      _ = (fixStep st c).1 ++ fixScan (fixStep st c).2 rest := by
          rw [h.1, h.2, ih]

/-- The escape-repair pass on its own is idempotent. -/
theorem fixJSONStringEscaping_idem (s : GoStr) :
    fixJSONStringEscaping (fixJSONStringEscaping s) = fixJSONStringEscaping s :=
  fixScan_idem (false, false) s

theorem dropWhile_self_head (p : Char → Bool) (c : Char) (l : GoStr)
    (h : List.dropWhile p (c :: l) = c :: l) : p c = false := by
  by_contra hc
  have hc2 : p c = true := by revert hc; cases p c <;> simp
  rw [List.dropWhile_cons, if_pos hc2] at h
  have hle := (List.dropWhile_suffix (l := l) p).length_le
  rw [h] at hle
  simp at hle

theorem dropWhile_dropWhile (p : Char → Bool) (l : GoStr) :
    List.dropWhile p (List.dropWhile p l) = List.dropWhile p l := by
  induction l with
  | nil => rfl
  | cons c l ih =>
    by_cases h : p c = true
    · rw [List.dropWhile_cons, if_pos h, ih]
    · have h2 : p c = false := by revert h; cases p c <;> simp
      rw [List.dropWhile_cons, if_neg (by simp [h2]), List.dropWhile_cons,
        if_neg (by simp [h2])]

theorem goTrimRight_idem (l : GoStr) : goTrimRight (goTrimRight l) = goTrimRight l := by
  unfold goTrimRight
  rw [List.reverse_reverse, dropWhile_dropWhile]

theorem goTrimLeft_prefix_fixed (l m : GoStr) (hl : goTrimLeft l = l)
    (hp : m <+: l) : goTrimLeft m = m := by
  cases m with
  | nil => rfl
  | cons c t =>
    obtain ⟨r, hr⟩ := hp
    have hc : goIsSpace c = false := by
      apply dropWhile_self_head goIsSpace c (t ++ r)
      rw [← hr] at hl
      exact hl
    unfold goTrimLeft
    rw [List.dropWhile_cons, if_neg (by simp [hc])]

theorem goTrimRight_prefix_of (l : GoStr) : goTrimRight l <+: l := by
  have h := List.dropWhile_suffix (l := l.reverse) goIsSpace
  have h2 : (List.dropWhile goIsSpace l.reverse).reverse <+: l.reverse.reverse := by
    rw [ List.reverse_prefix]
    simpa using h
  simpa using h2

theorem goTrimSpace_left_fixed (l : GoStr) : goTrimLeft (goTrimSpace l) = goTrimSpace l := by
  unfold goTrimSpace
  apply goTrimLeft_prefix_fixed (goTrimLeft l)
  · unfold goTrimLeft; rw [dropWhile_dropWhile]
  · exact goTrimRight_prefix_of _

theorem goTrimSpace_right_fixed (l : GoStr) : goTrimRight (goTrimSpace l) = goTrimSpace l := by
  unfold goTrimSpace
  rw [goTrimRight_idem]

theorem goTrimSpace_of_fixed (l : GoStr) (h1 : goTrimLeft l = l) (h2 : goTrimRight l = l) :
    goTrimSpace l = l := by
  unfold goTrimSpace
  rw [h1, h2]

theorem stripMarkdownCodeFences_trim_left (s : GoStr) :
    goTrimLeft (stripMarkdownCodeFences s) = stripMarkdownCodeFences s := by
  unfold stripMarkdownCodeFences
  exact goTrimSpace_left_fixed _

theorem stripMarkdownCodeFences_trim_right (s : GoStr) :
    goTrimRight (stripMarkdownCodeFences s) = stripMarkdownCodeFences s := by
  unfold stripMarkdownCodeFences
  exact goTrimSpace_right_fixed _

theorem stripMarkdownCodeFences_of_clean (t : GoStr)
    (h1 : goTrimLeft t = t) (h2 : goTrimRight t = t)
    (hp : goHasPrefix t ("```".toList) = false)
    (hs : goHasSuffix t ("```".toList) = false) :
    stripMarkdownCodeFences t = t := by
  have htrim : goTrimSpace t = t := goTrimSpace_of_fixed t h1 h2
  have hpj : goHasPrefix t ("```json".toList) = false := by
    by_contra hc
    have hc2 : goHasPrefix t ("```json".toList) = true := by
      revert hc; cases goHasPrefix t ("```json".toList) <;> simp
    have hj : ("```json".toList).isPrefixOf t = true := hc2
    rw [ List.isPrefixOf_iff_prefix] at hj
    have h3 : ("```".toList) <+: t := List.IsPrefix.trans (by decide) hj
    rw [← List.isPrefixOf_iff_prefix] at h3
    rw [goHasPrefix, h3] at hp
    exact Bool.true_eq_false.mp hp
  unfold stripMarkdownCodeFences
  simp only [htrim, hpj, hp, Bool.false_eq_true, if_false, goTrimSuffix, hs]

theorem goIsSpace_ne_nl_tab (c : Char) (hc : goIsSpace c = false) : c ≠ '\n' ∧ c ≠ '\t' := by
  constructor <;> (intro h; subst h; simp [goIsSpace] at hc)

theorem fixScan_trim_left (st : Bool × Bool) (s : GoStr) (h : goTrimLeft s = s) :
    goTrimLeft (fixScan st s) = fixScan st s := by
  cases s with
  | nil => rfl
  | cons c rest =>
    have hc : goIsSpace c = false := dropWhile_self_head goIsSpace c rest h
    obtain ⟨h1, h2⟩ := goIsSpace_ne_nl_tab c hc
    have hchunk := fixStep_fst_eq st c h1 h2
    show List.dropWhile goIsSpace (fixScan st (c :: rest)) = fixScan st (c :: rest)
    rw [fixScan, hchunk]
    rw [List.cons_append, List.nil_append, List.dropWhile_cons, if_neg (by simp [hc])]

theorem goTrimRight_concat_fixed (u : GoStr) (c : Char) (hc : goIsSpace c = false) :
    goTrimRight (u ++ [c]) = u ++ [c] := by
  unfold goTrimRight
  rw [List.reverse_append]
  simp only [List.reverse_cons, List.reverse_nil, List.nil_append, List.singleton_append]
  rw [List.dropWhile_cons, if_neg (by simp [hc])]
  simp

theorem goTrimRight_concat_head (u : GoStr) (c : Char)
    (h : goTrimRight (u ++ [c]) = u ++ [c]) : goIsSpace c = false := by
  unfold goTrimRight at h
  have h2 := congrArg List.reverse h
  rw [List.reverse_reverse] at h2
  rw [List.reverse_append] at h2
  simp only [List.reverse_cons, List.reverse_nil, List.nil_append, List.singleton_append] at h2
  exact dropWhile_self_head goIsSpace c u.reverse h2

theorem fixScan_trim_right (st : Bool × Bool) (s : GoStr) (h : goTrimRight s = s) :
    goTrimRight (fixScan st s) = fixScan st s := by
  rcases List.eq_nil_or_concat s with hnil | ⟨u, c, huc⟩
  · subst hnil; rfl
  · rw [List.concat_eq_append] at huc
    subst huc
    have hc : goIsSpace c = false := goTrimRight_concat_head u c h
    obtain ⟨h1, h2⟩ := goIsSpace_ne_nl_tab c hc
    have hfix : fixScan st (u ++ [c]) = fixScan st u ++ [c] := by
      rw [fixScan_append]
      rw [show fixScan (scanState st u) [c] =
          (fixStep (scanState st u) c).1 ++ fixScan (fixStep (scanState st u) c).2 [] from rfl]
      rw [fixStep_fst_eq _ c h1 h2]
      rfl
    rw [hfix, goTrimRight_concat_fixed _ c hc]

theorem fixScan_cons_backtick (st : Bool × Bool) (s out : GoStr)
    (h : fixScan st s = '`' :: out) : ∃ st2 rest, s = '`' :: rest ∧ out = fixScan st2 rest := by
  cases s with
  | nil => simp [fixScan] at h
  | cons c rest =>
    rw [fixScan] at h
    obtain ⟨i, e⟩ := st
    cases e
    · by_cases hb : c = '\\'
      · subst hb; simp [fixStep] at h
      · by_cases hq : c = '"'
        · subst hq; simp [fixStep] at h
        · by_cases hn : i = true ∧ c = '\n'
          · rw [show (fixStep (i, false) c).1 = ['\\', 'n'] by simp [fixStep, hb, hq, hn]] at h
            simp at h
          · by_cases ht : i = true ∧ c = '\t'
            · rw [show (fixStep (i, false) c).1 = ['\\', 't'] by
                simp [fixStep, hb, hq, hn, ht]] at h
              simp at h
            · rw [show (fixStep (i, false) c).1 = [c] by simp [fixStep, hb, hq, hn, ht]] at h
              rw [List.cons_append, List.nil_append] at h
              injection h with hc hout
              exact ⟨(fixStep (i, false) c).2, rest, by rw [hc], hout.symm⟩
    · rw [show fixStep (i, true) c = ([c], (i, false)) from rfl] at h
      rw [List.cons_append, List.nil_append] at h
      injection h with hc hout
      exact ⟨(i, false), rest, by rw [hc], hout.symm⟩

theorem fixScan_prefix_backtick (st : Bool × Bool) (s : GoStr)
    (h : goHasPrefix (fixScan st s) ("```".toList) = true) :
    goHasPrefix s ("```".toList) = true := by
  rw [goHasPrefix, List.isPrefixOf_iff_prefix] at h
  obtain ⟨t, ht⟩ := h
  obtain ⟨st1, r1, hr1, ho1⟩ := fixScan_cons_backtick st s ('`' :: '`' :: t) (by
    rw [← ht]; rfl)
  obtain ⟨st2, r2, hr2, ho2⟩ := fixScan_cons_backtick st1 r1 ('`' :: t) ho1.symm
  obtain ⟨st3, r3, hr3, _⟩ := fixScan_cons_backtick st2 r2 t ho2.symm
  rw [goHasPrefix, List.isPrefixOf_iff_prefix]
  exact ⟨r3, by rw [hr1, hr2, hr3]; rfl⟩

theorem fixStep_fst_cases (st : Bool × Bool) (c : Char) :
    (fixStep st c).1 = [c] ∨ (fixStep st c).1 = ['\\', 'n'] ∨
    (fixStep st c).1 = ['\\', 't'] := by
  obtain ⟨i, e⟩ := st
  cases e
  · simp only [fixStep]
    split_ifs <;> simp
  · simp [fixStep]

theorem fixScan_concat_backtick (st : Bool × Bool) (s out : GoStr)
    (h : fixScan st s = out ++ ['`']) : ∃ u, s = u ++ ['`'] ∧ fixScan st u = out := by
  rcases List.eq_nil_or_concat s with hnil | ⟨u, c, huc⟩
  · subst hnil; simp [fixScan] at h
  · rw [List.concat_eq_append] at huc
    subst huc
    rw [fixScan_append] at h
    rw [show fixScan (scanState st u) [c] =
        (fixStep (scanState st u) c).1 ++ fixScan (fixStep (scanState st u) c).2 [] from rfl]
      at h
    rw [show fixScan (fixStep (scanState st u) c).2 [] = [] from rfl, List.append_nil] at h
    rcases fixStep_fst_cases (scanState st u) c with hch | hch | hch
    all_goals rw [hch] at h
    · have hrev := congrArg List.reverse h
      simp only [List.reverse_append, List.reverse_cons, List.reverse_nil, List.nil_append,
        List.singleton_append] at hrev
      injection hrev with hc hrest
      subst hc
      have hu : fixScan st u = out := by
        have h2 := congrArg List.reverse hrest
        simpa using h2
      exact ⟨u, rfl, hu⟩
    · exfalso
      have hrev := congrArg List.reverse h
      simp only [List.reverse_append, List.reverse_cons, List.reverse_nil, List.nil_append,
        List.cons_append, List.singleton_append] at hrev
      injection hrev with hc _
      simp at hc
    · exfalso
      have hrev := congrArg List.reverse h
      simp only [List.reverse_append, List.reverse_cons, List.reverse_nil, List.nil_append,
        List.cons_append, List.singleton_append] at hrev
      injection hrev with hc _
      simp at hc

theorem fixScan_suffix_backtick (st : Bool × Bool) (s : GoStr)
    (h : goHasSuffix (fixScan st s) ("```".toList) = true) :
    goHasSuffix s ("```".toList) = true := by
  rw [goHasSuffix, List.isSuffixOf_iff_suffix] at h
  obtain ⟨t, ht⟩ := h
  have ht3 : fixScan st s = ((t ++ ['`']) ++ ['`']) ++ ['`'] := by
    rw [← ht]; simp
  obtain ⟨u1, hu1, ho1⟩ := fixScan_concat_backtick st s _ ht3
  obtain ⟨u2, hu2, ho2⟩ := fixScan_concat_backtick st u1 _ ho1
  obtain ⟨u3, hu3, _⟩ := fixScan_concat_backtick st u2 _ ho2
  rw [goHasSuffix, List.isSuffixOf_iff_suffix]
  refine ⟨u3, ?_⟩
  rw [hu1, hu2, hu3]
  simp

theorem fixJSON_trim_left (s : GoStr) (h : goTrimLeft s = s) :
    goTrimLeft (fixJSONStringEscaping s) = fixJSONStringEscaping s :=
  fixScan_trim_left (false, false) s h

theorem fixJSON_trim_right (s : GoStr) (h : goTrimRight s = s) :
    goTrimRight (fixJSONStringEscaping s) = fixJSONStringEscaping s :=
  fixScan_trim_right (false, false) s h

/-- C5 counterexample.  The composed normalization is NOT idempotent on
every string: on doubleFence one pass yields "```json" and a second pass
yields the empty string. -/
theorem normalizeResponse_not_idempotent :
    normalizeResponse (normalizeResponse doubleFence) ≠ normalizeResponse doubleFence := by
  decide

/-- C5 (amended).  The escape-repair pass is idempotent, and the composed
normalization (fence-stripping then escape-repair) is idempotent on every
input whose fence-stripped form neither starts nor ends with a ``` marker;
the counterexample shows the unconditional statement fails when the stripped
form retains a fence marker at an end. -/
theorem normalizeResponse_idem (s : GoStr)
    (hp : goHasPrefix (stripMarkdownCodeFences s) ("```".toList) = false)
    (hs : goHasSuffix (stripMarkdownCodeFences s) ("```".toList) = false) :
    normalizeResponse (normalizeResponse s) = normalizeResponse s := by
  unfold normalizeResponse
  have hL := stripMarkdownCodeFences_trim_left s
  have hR := stripMarkdownCodeFences_trim_right s
  have hfixL := fixJSON_trim_left _ hL
  have hfixR := fixJSON_trim_right _ hR
  have hfixP : goHasPrefix (fixJSONStringEscaping (stripMarkdownCodeFences s))
      ("```".toList) = false := by
    by_contra hc
    have hc2 : goHasPrefix (fixJSONStringEscaping (stripMarkdownCodeFences s))
        ("```".toList) = true := by
      revert hc
      cases goHasPrefix (fixJSONStringEscaping (stripMarkdownCodeFences s)) ("```".toList) <;>
        simp
    have := fixScan_prefix_backtick (false, false) _ hc2
    rw [this] at hp
    exact Bool.true_eq_false.mp hp
  have hfixS : goHasSuffix (fixJSONStringEscaping (stripMarkdownCodeFences s))
      ("```".toList) = false := by
    by_contra hc
    have hc2 : goHasSuffix (fixJSONStringEscaping (stripMarkdownCodeFences s))
        ("```".toList) = true := by
      revert hc
      cases goHasSuffix (fixJSONStringEscaping (stripMarkdownCodeFences s)) ("```".toList) <;>
        simp
    have := fixScan_suffix_backtick (false, false) _ hc2
    rw [this] at hs
    exact Bool.true_eq_false.mp hs
  rw [stripMarkdownCodeFences_of_clean _ hfixL hfixR hfixP hfixS]
  exact fixJSONStringEscaping_idem _

/-- Witness for the amended C5 theorem: a fenced JSON payload whose stripped
form starts with a brace, evaluated concretely. -/
theorem normalizeResponse_idem_witness :
    goHasPrefix (stripMarkdownCodeFences ("```json\n\x7b\"a\": \"b\"\x7d\n```".toList))
        ("```".toList) = false ∧
    goHasSuffix (stripMarkdownCodeFences ("```json\n\x7b\"a\": \"b\"\x7d\n```".toList))
        ("```".toList) = false ∧
    normalizeResponse (normalizeResponse ("```json\n\x7b\"a\": \"b\"\x7d\n```".toList)) =
      normalizeResponse ("```json\n\x7b\"a\": \"b\"\x7d\n```".toList) :=
  ⟨by decide, by decide,
    normalizeResponse_idem ("```json\n\x7b\"a\": \"b\"\x7d\n```".toList) (by decide) (by decide)⟩

/-- C9.  The escape-repair pass is the identity on any string containing no
literal newline and no literal tab, whatever its quotes or backslashes. -/
theorem fixJSONStringEscaping_clean_id (s : GoStr)
    (h : ∀ c ∈ s, c ≠ '\n' ∧ c ≠ '\t') : fixJSONStringEscaping s = s :=
  fixScan_clean (false, false) s h

/-- Witness for C9 at a concrete input containing quotes and a lone
backslash but no newline or tab. -/
theorem fixJSONStringEscaping_clean_id_witness :
    fixJSONStringEscaping ("ab\"x\\y\"z".toList) = "ab\"x\\y\"z".toList :=
  fixJSONStringEscaping_clean_id ("ab\"x\\y\"z".toList) (by decide)

/-- C3 counterexample.  In scenario D (20-line file, finding at
lineStart = lineEnd = 10, 3-line fix) the apply action does NOT produce a
22-line file: lineEnd is widened to 12 first, so the splice replaces three
original lines and the file stays at 20 lines. -/
theorem reviewApplyStep_scenario_not_22 :
    ¬ ((reviewApplyStep demoContent20 demoIssue3).map (fun c => (goSplitNl c).length) =
        Except.ok 22) := by
  decide

/-- C3 (amended).  Applying a 3-line fix to a finding with
lineStart = lineEnd = 10 in a 20-line file yields a 20-line file: the fix
occupies positions 10-12, the original lines 11 and 12 are replaced, and
the line originally at position 13 is still at position 13. -/
theorem reviewApplyStep_scenario :
    reviewApplyStep demoContent20 demoIssue3 = Except.ok demoResult3 ∧
    (goSplitNl demoResult3).length = 20 ∧
    ((goSplitNl demoResult3).drop 9).take 3 = ["f1".toList, "f2".toList, "f3".toList] ∧
    (goSplitNl demoResult3).getD 12 [] = "l13".toList := by
  refine ⟨by decide, by decide, by decide, by decide⟩

/-- C4.  For every file with at least one line and arbitrary integer line
numbers, the clamp step of applyFix lands in 1 ≤ lineStart ≤ lineEnd ≤
lineCount, and applyFix itself never returns an error when a non-empty fix
is available, whatever the reported line numbers were. -/
theorem clampLineRange_bounds (n ls le : Int) (h : 1 ≤ n) :
    (1 ≤ (clampLineRange n ls le).1 ∧
      (clampLineRange n ls le).1 ≤ (clampLineRange n ls le).2 ∧
      (clampLineRange n ls le).2 ≤ n) ∧
    (∀ (content : GoStr) (issue : SecurityIssue), issue.FixAvailable = true →
      issue.SuggestedFix ≠ [] → ∃ out, applyFix content issue = Except.ok out) := by
  constructor
  · unfold clampLineRange
    dsimp only
    split_ifs <;> omega
  · intro content issue hfix hne
    unfold applyFix
    rw [if_neg (by push_neg; exact ⟨by simp [hfix], hne⟩)]
    exact ⟨_, rfl⟩

/-- Witness for C4 at lineCount 3 and the out-of-range pair (-5, 100),
together with a concrete non-erroring applyFix run. -/
theorem clampLineRange_bounds_witness :
    (1 ≤ (clampLineRange 3 (-5) 100).1 ∧
      (clampLineRange 3 (-5) 100).1 ≤ (clampLineRange 3 (-5) 100).2 ∧
      (clampLineRange 3 (-5) 100).2 ≤ 3) ∧
    (∃ out, applyFix ("a\nb\nc".toList) demoIssue3 = Except.ok out) :=
  ⟨(clampLineRange_bounds 3 (-5) 100 (by decide)).1,
   (clampLineRange_bounds 3 (-5) 100 (by decide)).2 ("a\nb\nc".toList) demoIssue3
     (by decide) (by decide)⟩

/-- C7 counterexample.  With two findings sharing lineStart = 5 the
processing order after the sort is not strictly descending. -/
theorem sortFindingsDesc_not_strict :
    ¬ List.Pairwise (fun a b => b.LineStart < a.LineStart)
      (sortFindingsDesc [{ LineStart := 5 }, { LineStart := 5 }]) := by
  decide

theorem insertDesc_perm (x : SecurityIssue) (l : List SecurityIssue) :
    (insertDesc x l).Perm (x :: l) := by
  induction l with
  | nil => rfl
  | cons y ys ih =>
    rw [insertDesc]
    split_ifs
    · rfl
    · exact (ih.cons y).trans (List.Perm.swap x y ys)

theorem sortFindingsDesc_perm (findings : List SecurityIssue) :
    (sortFindingsDesc findings).Perm findings := by
  induction findings with
  | nil => rfl
  | cons x xs ih =>
    exact (insertDesc_perm x (xs.foldr insertDesc [])).trans (ih.cons x)

theorem insertDesc_pairwise (x : SecurityIssue) (l : List SecurityIssue)
    (h : List.Pairwise (fun a b => b.LineStart ≤ a.LineStart) l) :
    List.Pairwise (fun a b => b.LineStart ≤ a.LineStart) (insertDesc x l) := by
  induction l with
  | nil => simp [insertDesc]
  | cons y ys ih =>
    rw [insertDesc]
    rw [List.pairwise_cons] at h
    split_ifs with hyx
    · refine List.Pairwise.cons ?_ (List.Pairwise.cons h.1 h.2)
      intro z hz
      rcases List.mem_cons.mp hz with hz1 | hz1
      · subst hz1; exact hyx
      · exact le_trans (h.1 z hz1) hyx
    · refine List.Pairwise.cons ?_ (ih h.2)
      intro z hz
      rcases List.mem_cons.mp ((insertDesc_perm x ys).mem_iff.mp hz) with hz1 | hz1
      · subst hz1; omega
      · exact h.1 z hz1

theorem sortFindingsDesc_pairwise (findings : List SecurityIssue) :
    List.Pairwise (fun a b => b.LineStart ≤ a.LineStart) (sortFindingsDesc findings) := by
  induction findings with
  | nil => simp [sortFindingsDesc]
  | cons x xs ih => exact insertDesc_pairwise x _ ih

/-- C7 (amended).  The review order is non-increasing in lineStart — so a
later-processed finding never has a larger lineStart — and it is strictly
descending whenever the findings carry pairwise distinct lineStart values. -/
theorem sortFindingsDesc_order (findings : List SecurityIssue) :
    List.Pairwise (fun a b => b.LineStart ≤ a.LineStart) (sortFindingsDesc findings) ∧
    (List.Pairwise (fun a b => a.LineStart ≠ b.LineStart) findings →
      List.Pairwise (fun a b => b.LineStart < a.LineStart) (sortFindingsDesc findings)) := by
  have hle := sortFindingsDesc_pairwise findings
  refine ⟨hle, fun hne => ?_⟩
  have hne2 : List.Pairwise (fun a b : SecurityIssue => a.LineStart ≠ b.LineStart)
      (sortFindingsDesc findings) := by
    have hiff := List.Perm.pairwise_iff
      (R := fun a b : SecurityIssue => a.LineStart ≠ b.LineStart)
      (fun hxy => hxy.symm) (sortFindingsDesc_perm findings)
    exact hiff.mpr hne
  have hand := hle.and hne2
  refine hand.imp ?_
  intro a b hab
  omega

/-- Witness for C7 on a two-element list with distinct lineStart values. -/
theorem sortFindingsDesc_order_witness :
    List.Pairwise (fun a b => b.LineStart ≤ a.LineStart)
      (sortFindingsDesc [{ LineStart := 3 }, { LineStart := 7 }]) ∧
    List.Pairwise (fun a b => b.LineStart < a.LineStart)
      (sortFindingsDesc [{ LineStart := 3 }, { LineStart := 7 }]) :=
  ⟨(sortFindingsDesc_order [{ LineStart := 3 }, { LineStart := 7 }]).1,
   (sortFindingsDesc_order [{ LineStart := 3 }, { LineStart := 7 }]).2 (by decide)⟩

/-- C8.  The static pre-scanner on the scenario A file reports exactly one
finding: line 5, pattern exec.Command, severity High. -/
theorem runTriadStaticAnalysis_scenario :
    runTriadStaticAnalysis [("main.go".toList, execDemoFile)] =
      [⟨"main.go".toList, 5, "exec.Command".toList, "High".toList⟩] := by
  decide

/-- C10.  extractLines is total on arbitrary integer line numbers: it
returns the empty string when lineStart is below 1 or beyond the number of
lines, and otherwise a newline-join of a contiguous in-bounds slice of the
line list. -/
theorem extractLines_safe (lines : List GoStr) (ls le : Int) :
    (ls < 1 ∨ ls > (lines.length : Int) → extractLines lines ls le = []) ∧
    (1 ≤ ls → ls ≤ (lines.length : Int) →
      ∃ sub, sub <:+: lines ∧ extractLines lines ls le = goJoinNl sub) := by
  constructor
  · intro h
    unfold extractLines
    rw [if_pos h]
  · intro h1 h2
    unfold extractLines
    rw [if_neg (by omega)]
    refine ⟨_, ?_, rfl⟩
    exact List.IsInfix.trans ( List.IsPrefix.isInfix ( List.take_prefix _ _))
      ( List.IsSuffix.isInfix (List.drop_suffix _ _))

/-- Witness for C10: both branches evaluated on a concrete 3-line list. -/
theorem extractLines_safe_witness :
    extractLines ["a".toList, "b".toList, "c".toList] 0 5 = [] ∧
    (∃ sub, sub <:+: ["a".toList, "b".toList, "c".toList] ∧
      extractLines ["a".toList, "b".toList, "c".toList] 2 3 = goJoinNl sub) :=
  ⟨(extractLines_safe ["a".toList, "b".toList, "c".toList] 0 5).1 (by decide),
   (extractLines_safe ["a".toList, "b".toList, "c".toList] 2 3).2 (by decide) (by decide)⟩

theorem scanFileM_ok_cases (s : ScannerModel) (env : GoEnv) (f : GoStr) (r : ScanResult)
    (h : scanFileM s env f = Except.ok r) :
    r = ⟨f, [], false, []⟩ ∨
    (s.scanType = "security".toList ∧
      ∃ fs, r = ⟨f, renderFindings fs, decide (fs.length > 0), fs⟩) ∨
    (s.scanType ≠ "security".toList ∧
      ∃ resp, r = ⟨f, resp, decide (goTrimSpace resp ≠ []), []⟩) := by
  unfold scanFileM at h
  split at h
  · exact absurd h (by simp)
  · split_ifs at h with h1 h2 h3
    · simp only [Except.ok.injEq] at h
      exact Or.inl h.symm
    · simp only [Except.ok.injEq] at h
      exact Or.inl h.symm
    · dsimp only at h
      split at h
      · exact absurd h (by simp)
      · split at h
        · exact absurd h (by simp)
        · split at h
          · exact absurd h (by simp)
          · simp only [Except.ok.injEq] at h
            exact Or.inr (Or.inl ⟨h3, _, h.symm⟩)
    · dsimp only at h
      split at h
      · exact absurd h (by simp)
      · simp only [Except.ok.injEq] at h
        exact Or.inr (Or.inr ⟨h3, _, h.symm⟩)

/-- C1 (amended).  A security-mode result has hasIssues exactly when its
structured issues list is non-empty, and the triad result exactly when the
decoded report's vulnerabilities list is non-empty; but a custom-mode
result has hasIssues exactly when the trimmed raw response is non-empty,
while its issues list is always empty. -/
theorem scanResult_hasIssues_iff (s : ScannerModel) (env : GoEnv) (files : List GoStr) :
    (∀ results, s.scanType = "security".toList →
      ScanFiles s env files = Except.ok results →
      ∀ r ∈ results, (r.HasIssues = true ↔ r.Issues ≠ [])) ∧
    (∀ results, s.scanType ≠ "triad".toList → s.scanType ≠ "security".toList →
      ScanFiles s env files = Except.ok results →
      ∀ r ∈ results, (r.HasIssues = true ↔ goTrimSpace r.RawFindings ≠ [])) ∧
    (∀ res rep n, scanTriadFilesM env files = Except.ok (res, rep, n) →
      (res.HasIssues = true ↔ rep.Vulnerabilities ≠ [])) := by
  have hmem : ∀ results, ScanFiles s env files = Except.ok results →
      s.scanType ≠ "triad".toList → ∀ r ∈ results, ∃ f, scanFileM s env f = Except.ok r := by
    intro results hrun hmode r hr
    unfold ScanFiles at hrun
    rw [if_neg hmode] at hrun
    simp only [Except.ok.injEq] at hrun
    subst hrun
    obtain ⟨f, _, hsome⟩ := List.mem_filterMap.mp hr
    refine ⟨f, ?_⟩
    rcases hcase : scanFileM s env f with e | v
    · rw [hcase] at hsome
      simp [Except.toOption] at hsome
    · rw [hcase] at hsome
      simp only [Except.toOption] at hsome
      injection hsome with hv
      rw [hv]
  refine ⟨?_, ?_, ?_⟩
  · intro results hsec hrun r hr
    have hmode : s.scanType ≠ "triad".toList := by rw [hsec]; decide
    obtain ⟨f, hf⟩ := hmem results hrun hmode r hr
    rcases scanFileM_ok_cases s env f r hf with hsh | ⟨_, fs, hsh⟩ | ⟨hcu, _, _⟩
    · subst hsh; simp
    · subst hsh
      simp [List.length_pos]
    · exact absurd hsec hcu
  · intro results hmode hnosec hrun r hr
    obtain ⟨f, hf⟩ := hmem results hrun hmode r hr
    rcases scanFileM_ok_cases s env f r hf with hsh | ⟨hsec, _, _⟩ | ⟨_, resp, hsh⟩
    · subst hsh
      simp [goTrimSpace, goTrimLeft, goTrimRight]
    · exact absurd hsec hnosec
    · subst hsh
      simp
  · intro res rep n h
    unfold scanTriadFilesM at h
    split_ifs at h with hempty
    · simp only [Except.ok.injEq, Prod.mk.injEq] at h
      obtain ⟨hres, hrep, -⟩ := h
      rw [← hres, ← hrep]
      simp
    · split at h
      · exact absurd h (by simp)
      · split_ifs at h with hcode
        · simp only [Except.ok.injEq, Prod.mk.injEq] at h
          obtain ⟨hres, hrep, -⟩ := h
          rw [← hres, ← hrep]
          simp
        · dsimp only at h
          split at h
          · exact absurd h (by simp)
          · split at h
            · exact absurd h (by simp)
            · simp only [Except.ok.injEq, Prod.mk.injEq] at h
              obtain ⟨hres, hrep, -⟩ := h
              rw [← hres, ← hrep]
              simp [List.length_pos]

/-- C1 counterexample.  In custom mode a non-empty model response sets
hasIssues while the structured issues list stays empty, so hasIssues is not
equivalent to a non-empty issues list. -/
theorem scanFiles_custom_hasIssues_counterexample :
    ¬ (∀ results, ScanFiles customScanner envCustomHello ["a.go".toList] = Except.ok results →
        ∀ r ∈ results, (r.HasIssues = true ↔ r.Issues ≠ [])) := by
  intro h
  have h2 := h [⟨"a.go".toList, "hello".toList, true, []⟩] (by decide)
    ⟨"a.go".toList, "hello".toList, true, []⟩ (by simp)
  simp at h2

set_option maxRecDepth 8000 in
/-- Witness for the amended C1 theorem: one concrete run of each mode. -/
theorem scanResult_hasIssues_iff_witness :
    (∀ r ∈ [(⟨"a.go".toList, "No security issues found.".toList, false, []⟩ : ScanResult)],
      (r.HasIssues = true ↔ r.Issues ≠ [])) ∧
    (∀ r ∈ [(⟨"a.go".toList, "hello".toList, true, []⟩ : ScanResult)],
      (r.HasIssues = true ↔ goTrimSpace r.RawFindings ≠ [])) ∧
    ((⟨"triad:multi".toList, [], false, []⟩ : ScanResult).HasIssues = true ↔
      ({} : triadReport).Vulnerabilities ≠ []) :=
  ⟨(scanResult_hasIssues_iff secScanner envCustomHello ["a.go".toList]).1
      [⟨"a.go".toList, "No security issues found.".toList, false, []⟩] rfl (by decide),
   (scanResult_hasIssues_iff customScanner envCustomHello ["a.go".toList]).2.1
      [⟨"a.go".toList, "hello".toList, true, []⟩] (by decide) (by decide) (by decide),
   (scanResult_hasIssues_iff customScanner envCustomHello ["a.go".toList]).2.2
      ⟨"triad:multi".toList, [], false, []⟩ {} 3 (by decide)⟩

/-- C2 (amended).  In security and custom modes an empty (or oversized)
file is not scanned, but it still contributes a ScanResult to the returned
list: the empty result with hasIssues false and no issues. -/
theorem scanFiles_skipped_empty_result (s : ScannerModel) (env : GoEnv) (files : List GoStr)
    (f c : GoStr) (results : List ScanResult)
    (hmode : s.scanType ≠ "triad".toList) (hf : f ∈ files)
    (hread : env.readFile f = Except.ok c)
    (hskip : c.length = 0 ∨ c.length > 100000)
    (hrun : ScanFiles s env files = Except.ok results) :
    (⟨f, [], false, []⟩ : ScanResult) ∈ results := by
  unfold ScanFiles at hrun
  rw [if_neg hmode] at hrun
  simp only [Except.ok.injEq] at hrun
  subst hrun
  apply List.mem_filterMap.mpr
  refine ⟨f, hf, ?_⟩
  have hfile : scanFileM s env f = Except.ok ⟨f, [], false, []⟩ := by
    unfold scanFileM
    rw [hread]
    rcases hskip with h0 | hbig
    · simp only [if_pos h0]
    · have hne : ¬ c.length = 0 := by omega
      simp only [if_neg hne, if_pos hbig]
  rw [hfile]
  rfl

/-- C2 counterexample.  Scanning a single empty file in security mode
returns a list that does contain a ScanResult for that file. -/
theorem scanFiles_empty_file_counterexample :
    ¬ (∀ results, ScanFiles secScanner envEmptyRead ["a.go".toList] = Except.ok results →
        ∀ r ∈ results, r.FilePath ≠ "a.go".toList) := by
  intro h
  exact h [⟨"a.go".toList, [], false, []⟩] (by decide)
    ⟨"a.go".toList, [], false, []⟩ (by simp) rfl

/-- Witness for the amended C2 theorem at a concrete empty-file run. -/
theorem scanFiles_skipped_empty_result_witness :
    (⟨"a.go".toList, [], false, []⟩ : ScanResult) ∈
      [(⟨"a.go".toList, [], false, []⟩ : ScanResult)] :=
  scanFiles_skipped_empty_result secScanner envEmptyRead ["a.go".toList] ("a.go".toList) []
    [⟨"a.go".toList, [], false, []⟩] (by decide) (by simp) rfl (Or.inl rfl) (by decide)

/-- C6.  The triad round loop runs at most 3 rounds, stops immediately
after the first round whose decoded confidence folds to HIGH, and always
returns the decoded report of the last round executed: round-1 HIGH gives
(report 1, 1), round-2 HIGH after a non-HIGH round 1 gives (report 2, 2),
and three non-HIGH-prefixed rounds give (report 3, 3) whatever report 3
carries. -/
theorem triadLoop_rounds (env : GoEnv) (ctx : GoStr) :
    (∀ rep n, triadLoopFuel env ctx 3 [] 1 = Except.ok (rep, n) → 1 ≤ n ∧ n ≤ 3) ∧
    (∀ r1 s1, triadRound env ctx [] 1 = Except.ok (r1, s1) →
      goEqualFold r1.Confidence ("HIGH".toList) = true →
      triadLoopFuel env ctx 3 [] 1 = Except.ok (r1, 1)) ∧
    (∀ r1 s1 r2 s2, triadRound env ctx [] 1 = Except.ok (r1, s1) →
      goEqualFold r1.Confidence ("HIGH".toList) = false →
      triadRound env ctx s1 2 = Except.ok (r2, s2) →
      goEqualFold r2.Confidence ("HIGH".toList) = true →
      triadLoopFuel env ctx 3 [] 1 = Except.ok (r2, 2)) ∧
    (∀ r1 s1 r2 s2 r3 s3, triadRound env ctx [] 1 = Except.ok (r1, s1) →
      goEqualFold r1.Confidence ("HIGH".toList) = false →
      triadRound env ctx s1 2 = Except.ok (r2, s2) →
      goEqualFold r2.Confidence ("HIGH".toList) = false →
      triadRound env ctx s2 3 = Except.ok (r3, s3) →
      triadLoopFuel env ctx 3 [] 1 = Except.ok (r3, 3)) := by
  refine ⟨?_, ?_, ?_, ?_⟩
  · intro rep n h
    simp only [triadLoopFuel] at h
    norm_num at h
    repeat' split at h
    all_goals
      first
      | (simp only [Except.ok.injEq, Prod.mk.injEq] at h
         obtain ⟨-, hn⟩ := h
         omega)
      | simp at h
  · intro r1 s1 h1 hh1
    simp only [triadLoopFuel, h1, hh1]
    norm_num
  · intro r1 s1 r2 s2 h1 hh1 h2 hh2
    simp only [triadLoopFuel, h1, hh1, h2, hh2]
    norm_num
  · intro r1 s1 r2 s2 r3 s3 h1 hh1 h2 hh2 h3
    simp only [triadLoopFuel, h1, hh1, h2, hh2, h3]
    norm_num

set_option maxRecDepth 40000 in
/-- Witness for C6: in the concrete round-2-HIGH environment the loop
executes exactly two rounds and returns the round-2 report. -/
theorem triadLoop_rounds_witness :
    triadLoopFuel envTriadRound2High [] 3 [] 1 = Except.ok (triadRepHigh, 2) :=
  (triadLoop_rounds envTriadRound2High []).2.2.1 triadRepLow ("s1".toList) triadRepHigh
    ("s2".toList) (by decide) (by decide) (by decide) (by decide)

end Sidekick
